import Mathlib

/-!
Verification of the roster-balancing and assignment subsystem of the
Smart Sports Team Management platform (Flask application, `app/models.py`
and `app/routes.py`).

The relational rows of `app/models.py` are embedded as Lean structures and
the whole database as lists of rows (preserving insertion order, the order
in which the SQLAlchemy queries used by the routes return rows).  Each
route handler of `app/routes.py` that the claims mention is embedded as a
pure function from a database state to an updated database state plus a
response; `none` models a 404 (`get_or_404` miss), and `MutResult.err`
models a JSON error response (or an uncaught Python exception where noted).
-/

/-- One row of the `team` table (`app/models.py`, class `Team`).
`skill_rating` is `Option` because the column is nullable at the Python
level; the Python expression `x or 1200` treats both `None` and `0` as
missing, which `orDefault1200` reproduces. -/
structure TeamRow where
  id : ℕ
  name : String
  skill_rating : Option ℤ
  sport : Option String
deriving DecidableEq, Repr

/-- One row of the `player` table (`app/models.py`, class `Player`). -/
structure PlayerRow where
  id : ℕ
  name : String
  skill_rating : Option ℤ
  team_id : Option ℕ
deriving DecidableEq, Repr

/-- One row of the `player_skill` table (`app/models.py`, class `PlayerSkill`). -/
structure PlayerSkillRow where
  id : ℕ
  player_id : ℕ
  sport : String
  name : String
  value : ℤ
deriving DecidableEq, Repr

/-- One row of the `match` table (`app/models.py`, class `Match`).
Only the columns the embedded routes read are kept. -/
structure MatchRow where
  id : ℕ
  status : String
  team1_id : Option ℕ
  team2_id : Option ℕ
deriving DecidableEq, Repr

/-- One row of the `match_assignment` table (`app/models.py`,
class `MatchAssignment`). -/
structure AssignmentRow where
  id : ℕ
  match_id : ℕ
  player_id : ℕ
  team_side : String
deriving DecidableEq, Repr

/-- The committed database state: one list per table, in insertion order.
(`match_rows` embeds the `match` table; `matches` is a Lean keyword.) -/
structure DB where
  teams : List TeamRow
  players : List PlayerRow
  skills : List PlayerSkillRow
  match_rows : List MatchRow
  assignments : List AssignmentRow
deriving DecidableEq, Repr

/-- Result of a route handler body: a JSON payload or a JSON/exception error. -/
inductive MutResult (α : Type) where
  | ok : α → MutResult α
  | err : String → MutResult α
deriving DecidableEq, Repr

/-- Python `x or 1200` on a nullable integer: `None` and `0` are falsy. -/
def orDefault1200 (r : Option ℤ) : ℤ :=
  match r with
  | none => 1200
  | some v => if v = 0 then 1200 else v

/-- Python 3 `int(round(n / d))` for integers with `0 < d`, computed exactly:
the nearest integer to `n / d`, a half rounding to the even neighbour. -/
def pyRoundDiv (n d : ℤ) : ℤ :=
  let q := Int.fdiv n d
  let r := n - d * q
  if 2 * r < d then q
  else if d < 2 * r then q + 1
  else if q % 2 = 0 then q else q + 1

/-- `Player.query.filter_by(team_id=team.id).all()` for a team id. -/
def teamMembers (db : DB) (tid : ℕ) : List PlayerRow :=
  db.players.filter (fun p => p.team_id = some tid)

/-- The `p.skills` relationship: all skill rows of player `p`, insertion order. -/
def playerSkills (db : DB) (pid : ℕ) : List PlayerSkillRow :=
  db.skills.filter (fun s => s.player_id = pid)

/-- Every skill-entry value pooled over every current member of the team, in
the order the double loop of `recalc_team_skill` visits them. -/
def teamEntryValues (db : DB) (tid : ℕ) : List ℤ :=
  (teamMembers db tid).flatMap (fun p => (playerSkills db p.id).map (fun s => s.value))

/-- `recalc_team_skill` (`app/routes.py` lines 26-62): the new value stored
into `team.skill_rating` (the function also commits it; the stored value is
all the claims need). -/
def recalc_team_skill (db : DB) (t : TeamRow) : ℤ :=
  if 0 < (teamEntryValues db t.id).length then
    pyRoundDiv (teamEntryValues db t.id).sum (teamEntryValues db t.id).length
  else if teamMembers db t.id ≠ [] then
    pyRoundDiv ((teamMembers db t.id).map (fun p => orDefault1200 p.skill_rating)).sum
      (teamMembers db t.id).length
  else
    orDefault1200 t.skill_rating

/-- Running state of the skill-greedy split: the two sides built so far and
their running rating sums. -/
structure GreedyState (α : Type) where
  sideA : List α
  sideB : List α
  sumA : ℤ
  sumB : ℤ

/-- Sum of the ratings of a list of pool entries. -/
def ratingSum {α : Type} (rating : α → ℤ) (l : List α) : ℤ :=
  (l.map rating).sum

/-- One greedy step: the next entry goes to whichever side has the lower
running rating sum, a tie going to side A. -/
def greedyStep {α : Type} (rating : α → ℤ) (st : GreedyState α) (p : α) : GreedyState α :=
  if st.sumA ≤ st.sumB then
    { st with sideA := st.sideA ++ [p], sumA := st.sumA + rating p }
  else
    { st with sideB := st.sideB ++ [p], sumB := st.sumB + rating p }

/-- Stable sort of the pool by rating descending (ties keep input order:
an element is inserted before the first element of strictly smaller rating,
so equal ratings stay in insertion order). -/
def sortDesc {α : Type} (rating : α → ℤ) (l : List α) : List α :=
  l.insertionSort (fun x y => rating y ≤ rating x)

/-- Modelled from the spec: `balance_teams` lives in `app/utils.py`, which is
not among the provided sources; §4.2 describes the balance policy as: sort the
pool by rating descending with a stable tie-break, then assign each entry to
the side with the lower running rating sum, ties to side A. -/
def balanceBy {α : Type} (rating : α → ℤ) (pool : List α) : List α × List α :=
  (((sortDesc rating pool).foldl (greedyStep rating) ⟨[], [], 0, 0⟩).sideA,
   ((sortDesc rating pool).foldl (greedyStep rating) ⟨[], [], 0, 0⟩).sideB)

/-- Modelled from the spec: `balance_teams(pool)` over player rows, using each
player's scalar rating (§4.2, §8). -/
def balance_teams (pool : List PlayerRow) : List PlayerRow × List PlayerRow :=
  balanceBy (fun p => orDefault1200 p.skill_rating) pool

/-- Modelled from the spec: §4.2's `balance` over a pool of (identity,
rating) pairs, ratings being the nonnegative skill scalars of §4.1. -/
def balance (pool : List (ℕ × ℕ)) : List (ℕ × ℕ) × List (ℕ × ℕ) :=
  balanceBy (fun p => (p.2 : ℤ)) pool

/-- The maximum single rating occurring in a pool (0 for the empty pool). -/
def maxRating (pool : List (ℕ × ℕ)) : ℕ :=
  (pool.map (fun p => p.2)).foldr max 0

/-- Modelled from the spec: `shuffle_players_list` lives in `app/utils.py`,
which is not among the provided sources; §4.2 describes the shuffle policy as
a uniformly random permutation followed by a split at `floor(n/2)`.  The
random permutation is supplied by the caller as `shuffled`. -/
def shuffle_players_list (shuffled : List PlayerRow) : List PlayerRow × List PlayerRow :=
  (shuffled.take (shuffled.length / 2), shuffled.drop (shuffled.length / 2))

/-- `Match.query.get_or_404(match_id)`. -/
def findMatch (db : DB) (mid : ℕ) : Option MatchRow :=
  db.match_rows.find? (fun m => m.id = mid)

/-- The members of `team1` plus the members of `team2`, for the teams that are
set (`app/routes.py` lines 417-421 and 439-443, before the empty-pool
fallback). -/
def teamUnion (db : DB) (m : MatchRow) : List PlayerRow :=
  (match m.team1_id with
   | some t => teamMembers db t
   | none => []) ++
  (match m.team2_id with
   | some t => teamMembers db t
   | none => [])

/-- The pool used by `match_auto_balance` and `match_shuffle`
(`app/routes.py` lines 417-423 and 439-445): the team union, falling back to
`Player.query.all()` whenever that union is empty. -/
def poolFor (db : DB) (m : MatchRow) : List PlayerRow :=
  let pool := teamUnion db m
  if pool.isEmpty then db.players else pool

/-- The assignment rows of a match, insertion order
(`MatchAssignment.query.filter_by(match_id=match.id)`). -/
def rowsFor (rows : List AssignmentRow) (mid : ℕ) : List AssignmentRow :=
  rows.filter (fun a => a.match_id = mid)

/-- Fresh autoincrement id for a new `match_assignment` row. -/
def nextAssignId (rows : List AssignmentRow) : ℕ :=
  (rows.map (fun a => a.id)).foldr max 0 + 1

/-- Insert one assignment row per player, in order, on the given side
(the `for p in team_a: db.session.add(...)` loops). -/
def addAssignments (db : DB) (mid : ℕ) (side : String) (ps : List PlayerRow) : DB :=
  ps.foldl
    (fun d p =>
      { d with assignments :=
          d.assignments ++ [⟨nextAssignId d.assignments, mid, p.id, side⟩] })
    db

/-- Bulk delete `MatchAssignment.query.filter_by(match_id=mid).delete()`. -/
def deleteAssignmentsFor (db : DB) (mid : ℕ) : DB :=
  { db with assignments := db.assignments.filter (fun a => ¬ a.match_id = mid) }

/-- The assignment table after the delete-then-insert replace of
`match_auto_balance`: every row of the match removed, then one row per player
of side A, then one per player of side B. -/
def replacedState (db : DB) (mid : ℕ) (pool : List PlayerRow) : DB :=
  addAssignments
    (addAssignments (deleteAssignmentsFor db mid) mid "A" (balance_teams pool).1)
    mid "B" (balance_teams pool).2

/-- `match_auto_balance` (`app/routes.py` lines 412-433).  `none` is the 404
case; an `err` result is the JSON `{"error": "match locked"}` response. -/
def match_auto_balance (db : DB) (mid : ℕ) :
    Option (DB × MutResult (List String × List String)) :=
  match findMatch db mid with
  | none => none
  | some m =>
    if m.status = "locked" then some (db, .err "match locked")
    else
      some (replacedState db m.id (poolFor db m),
        .ok ((balance_teams (poolFor db m)).1.map (fun p => p.name),
             (balance_teams (poolFor db m)).2.map (fun p => p.name)))

/-- The committed snapshots of the `match_assignment` table that a concurrent
reader can observe during `match_auto_balance`: the state before the handler,
the state after the first `db.session.commit()` (which commits only the bulk
delete, lines 426-427), and the state after the final commit (line 432). -/
def match_auto_balance_states (db : DB) (mid : ℕ) : List (List AssignmentRow) :=
  match findMatch db mid with
  | none => [db.assignments]
  | some m =>
    if m.status = "locked" then [db.assignments]
    else
      [db.assignments, (deleteAssignmentsFor db m.id).assignments,
        (replacedState db m.id (poolFor db m)).assignments]

/-- `match_shuffle` (`app/routes.py` lines 435-454).  The random permutation
drawn by `shuffle_players_list` is passed in as `perm`, applied to the pool. -/
def match_shuffle (perm : List PlayerRow → List PlayerRow) (db : DB) (mid : ℕ) :
    Option (DB × MutResult (List String × List String)) :=
  match findMatch db mid with
  | none => none
  | some m =>
    if m.status = "locked" then some (db, .err "match locked")
    else
      let pool := poolFor db m
      let ab := shuffle_players_list (perm pool)
      let db1 := deleteAssignmentsFor db m.id
      let db2 := addAssignments (addAssignments db1 m.id "A" ab.1) m.id "B" ab.2
      some (db2, .ok (ab.1.map (fun p => p.name), ab.2.map (fun p => p.name)))

/-- Overwrite the status of match `mid`. -/
def setStatus (db : DB) (mid : ℕ) (s : String) : DB :=
  { db with match_rows :=
      db.match_rows.map (fun m => if m.id = mid then { m with status := s } else m) }

/-- `match_toggle_lock` (`app/routes.py` lines 456-467). -/
def match_toggle_lock (db : DB) (mid : ℕ) : Option (DB × MutResult String) :=
  match findMatch db mid with
  | none => none
  | some m =>
    if m.status = "locked" then
      some (setStatus db m.id "pending", .ok "pending")
    else if (rowsFor db.assignments m.id).length = 0 then
      some (db, .err "no assignments to lock")
    else
      some (setStatus db m.id "locked", .ok "locked")

/-- The state after the upsert branch of `match_assign_player`: delete any
row for (match, player), then insert a fresh row on the given side. -/
def upsertState (db : DB) (mid pid : ℕ) (side : String) : DB :=
  { db with assignments :=
      db.assignments.filter (fun a => ¬ (a.match_id = mid ∧ a.player_id = pid)) ++
        [⟨nextAssignId (db.assignments.filter
            (fun a => ¬ (a.match_id = mid ∧ a.player_id = pid))), mid, pid, side⟩] }

/-- `match_assign_player` (`app/routes.py` lines 470-486).  `removeFlag` is
`request.form.get("remove") == "1"`; `side` is the `team_side` form field.
The handler performs no lookup of the player id. -/
def match_assign_player (db : DB) (mid : ℕ) (pid : ℕ) (side : String)
    (removeFlag : Bool) : Option (DB × MutResult Unit) :=
  match findMatch db mid with
  | none => none
  | some m =>
    if m.status = "locked" then some (db, .err "match locked")
    else if removeFlag || side = "remove" then
      some ({ db with assignments :=
                db.assignments.filter (fun a => ¬ (a.match_id = m.id ∧ a.player_id = pid)) },
            .ok ())
    else
      some (upsertState db m.id pid side, .ok ())

/-- The committed deletion step of `delete_player` (`app/routes.py` lines
236-263).  The skill rows and the
player row are deleted and committed (lines 242-245) before the inline
recompute runs.  The recompute then reads `skill.skill_value` (the column is
named `value`), so it raises `AttributeError` as soon as any remaining member
has a skill row; with members but no skill rows it divides by
`total_skill_count = 0` and raises `ZeroDivisionError`; with no team at all,
`team.players` raises `AttributeError`.  In every one of those cases the
exception escapes after the deletion was committed and before any further
commit, so the result pairs the post-deletion state with an `err`.  When no
members remain, the handler only sets `team.average_skill_rating`, which is
not a mapped column, so the commit at line 260 stores nothing. -/
def deletePlayerState (db : DB) (pid : ℕ) : DB :=
  { db with
    skills := db.skills.filter (fun s => ¬ s.player_id = pid),
    players := db.players.filter (fun p => ¬ p.id = pid) }

/-- The branching of `delete_player` after the deletion has been committed
(see the doc comment above for the correspondence with the source). -/
def delete_player (db : DB) (pid : ℕ) : Option (DB × MutResult Unit) :=
  match db.players.find? (fun p => p.id = pid) with
  | none => none
  | some player =>
    match player.team_id with
    | none => some (deletePlayerState db pid,
        .err "AttributeError: NoneType has no attribute players")
    | some tid =>
      if (teamMembers (deletePlayerState db pid) tid).isEmpty then
        some (deletePlayerState db pid, .ok ())
      else if ((teamMembers (deletePlayerState db pid) tid).flatMap
          (fun p => playerSkills (deletePlayerState db pid) p.id)).isEmpty then
        some (deletePlayerState db pid, .err "ZeroDivisionError")
      else
        some (deletePlayerState db pid,
          .err "AttributeError: PlayerSkill has no attribute skill_value")

/-- The stored status of match `mid`, when the match exists. -/
def statusOf (db : DB) (mid : ℕ) : Option String :=
  (findMatch db mid).map (fun m => m.status)

/-! ## Concrete fixtures used by the claim theorems and witnesses -/

/-- A pending match with no assignment rows. -/
def m6 : MatchRow := ⟨1, "pending", none, none⟩

/-- Database with only the empty pending match. -/
def db6 : DB := ⟨[], [], [], [m6], []⟩

/-- A completed match. -/
def m7 : MatchRow := ⟨1, "completed", none, none⟩

/-- Database with a completed match that has one assignment row. -/
def db7 : DB := ⟨[], [], [], [m7], [⟨1, 1, 5, "A"⟩]⟩

/-- A completed match with no assignment rows. -/
def m1c : MatchRow := ⟨1, "completed", none, none⟩

/-- Database holding only the completed match `m1c`. -/
def db1c : DB := ⟨[], [], [], [m1c], []⟩

/-- The single member of team 1 in `db2fix`. -/
def c2player : PlayerRow := ⟨3, "P", some 1000, some 1⟩

/-- A pending match on team 1 that already has one assignment row (side B). -/
def db2fix : DB :=
  ⟨[⟨1, "T", some 1200, some "soccer"⟩], [c2player], [],
   [⟨1, "pending", some 1, none⟩], [⟨1, 1, 3, "B"⟩]⟩

/-- A player that belongs to no team. -/
def c3stray : PlayerRow := ⟨5, "Stray", some 1000, none⟩

/-- A pending match whose `team1` is set but has no members. -/
def c3m : MatchRow := ⟨1, "pending", some 1, none⟩

/-- Database with an empty team 1, the stray player, and the match `c3m`. -/
def db3 : DB := ⟨[⟨1, "Empty", some 1200, some "soccer"⟩], [c3stray], [], [c3m], []⟩

/-- The player deleted in the `delete_player` witness. -/
def c5victim : PlayerRow := ⟨1, "Victim", some 1000, some 1⟩

/-- A teammate of `c5victim` who stays behind, with one skill row. -/
def c5mate : PlayerRow := ⟨2, "Mate", some 1100, some 1⟩

/-- Database for the `delete_player` witness. -/
def db5 : DB :=
  ⟨[⟨1, "T", some 1200, some "soccer"⟩], [c5victim, c5mate],
   [⟨1, 2, "soccer", "Shooting", 50⟩], [], []⟩

/-- A pending match used by the ghost-player counterexample. -/
def m9 : MatchRow := ⟨1, "pending", none, none⟩

/-- Database with the pending match `m9` and no players at all. -/
def db9 : DB := ⟨[], [], [], [m9], []⟩

/-- A team with two members whose skill entries are 80, 90 and 70. -/
def c4team : TeamRow := ⟨1, "T", some 1200, some "soccer"⟩

/-- Database for the skill-aggregation example of §8. -/
def c4db : DB :=
  { teams := [c4team],
    players := [⟨1, "P1", some 1200, some 1⟩, ⟨2, "P2", some 1200, some 1⟩],
    skills := [⟨1, 1, "soccer", "Shooting", 80⟩, ⟨2, 1, "soccer", "Passing", 90⟩,
               ⟨3, 2, "soccer", "Shooting", 70⟩],
    match_rows := [],
    assignments := [] }

/-- Claim C4: with at least one skill entry on the team, the recomputed team
rating is the rounded flat mean of all entry values pooled over all members;
with members but no entries it is the rounded mean of the members' own
ratings (absent ratings defaulting to 1200); and the {80,90}/{70} example
yields 80, not the per-player-mean value 78. -/
theorem recalc_flat_mean (db : DB) (t : TeamRow) :
    (teamEntryValues db t.id ≠ [] →
      recalc_team_skill db t =
        pyRoundDiv (teamEntryValues db t.id).sum (teamEntryValues db t.id).length) ∧
    (teamEntryValues db t.id = [] → teamMembers db t.id ≠ [] →
      recalc_team_skill db t =
        pyRoundDiv ((teamMembers db t.id).map (fun p => orDefault1200 p.skill_rating)).sum
          (teamMembers db t.id).length) ∧
    recalc_team_skill c4db c4team = 80 ∧
    pyRoundDiv (85 + 70) 2 = 78 := by
  refine ⟨?_, ?_, by decide, by decide⟩
  · intro hv
    rw [recalc_team_skill, if_pos (List.length_pos.mpr hv)]
  · intro hv hm
    rw [recalc_team_skill, if_neg (by simp [hv]), if_pos hm]

/-- Witness for `recalc_flat_mean`: its hypotheses hold at `c4db`/`c4team`. -/
theorem recalc_flat_mean_witness :
    recalc_team_skill c4db c4team =
      pyRoundDiv (teamEntryValues c4db c4team.id).sum
        (teamEntryValues c4db c4team.id).length :=
  (recalc_flat_mean c4db c4team).1 (by decide)

/-- Mapping a status overwrite over the match list relocates a successful
`find?` to the updated row. -/
lemma find?_map_setStatus (l : List MatchRow) (mid : ℕ) (s : String) (m : MatchRow)
    (h : l.find? (fun x => x.id = mid) = some m) :
    (l.map (fun x => if x.id = mid then { x with status := s } else x)).find?
        (fun x => x.id = mid) = some { m with status := s } := by
  induction l with
  | nil => simp at h
  | cons x xs ih =>
    by_cases hx : x.id = mid
    · rw [List.find?_cons_of_pos _ (by simp [hx])] at h
      simp only [List.map_cons, if_pos hx]
      rw [List.find?_cons_of_pos _ (by simp [hx])]
      cases h
      rfl
    · rw [List.find?_cons_of_neg _ (by simp [hx])] at h
      simp only [List.map_cons, if_neg hx]
      rw [List.find?_cons_of_neg _ (by simp [hx])]
      exact ih h

/-- `findMatch` after `setStatus` on a found match. -/
lemma findMatch_setStatus (db : DB) (mid : ℕ) (s : String) (m : MatchRow)
    (h : findMatch db mid = some m) :
    findMatch (setStatus db mid s) mid = some { m with status := s } :=
  find?_map_setStatus db.match_rows mid s m h

/-- A found match has the id that was searched for. -/
lemma findMatch_id (db : DB) (mid : ℕ) (m : MatchRow)
    (h : findMatch db mid = some m) : m.id = mid := by
  have := List.find?_some h
  simpa using this

/-- Claim C6: toggleLock on a pending match with zero assignment rows fails
(`no assignments to lock`) leaving the database untouched; with at least one
row it flips pending to locked; and a locked match is always toggled back to
pending, with no precondition. -/
theorem toggle_lock_spec (db : DB) (mid : ℕ) (m : MatchRow)
    (hm : findMatch db mid = some m) :
    (m.status = "pending" → rowsFor db.assignments m.id = [] →
      match_toggle_lock db mid = some (db, .err "no assignments to lock")) ∧
    (m.status = "pending" → rowsFor db.assignments m.id ≠ [] →
      match_toggle_lock db mid = some (setStatus db m.id "locked", .ok "locked") ∧
        statusOf (setStatus db m.id "locked") mid = some "locked") ∧
    (m.status = "locked" →
      match_toggle_lock db mid = some (setStatus db m.id "pending", .ok "pending") ∧
        statusOf (setStatus db m.id "pending") mid = some "pending") := by
  have hid : m.id = mid := findMatch_id db mid m hm
  refine ⟨?_, ?_, ?_⟩
  · intro hs hr
    simp only [match_toggle_lock, hm]
    rw [if_neg (by rw [hs]; decide), if_pos (by rw [hr]; rfl)]
  · intro hs hr
    constructor
    · simp only [match_toggle_lock, hm]
      rw [if_neg (by rw [hs]; decide),
        if_neg (fun h => hr (List.length_eq_zero.mp h))]
    · rw [hid, statusOf, findMatch_setStatus db mid "locked" m hm]
      rfl
  · intro hs
    constructor
    · simp only [match_toggle_lock, hm]
      rw [if_pos hs]
    · rw [hid, statusOf, findMatch_setStatus db mid "pending" m hm]
      rfl

/-- Witness for `toggle_lock_spec`: on `db6` (pending, no assignments) the
toggle fails and the state is unchanged. -/
theorem toggle_lock_spec_witness :
    match_toggle_lock db6 1 = some (db6, .err "no assignments to lock") :=
  (toggle_lock_spec db6 1 m6 (by decide)).1 (by decide) (by decide)

/-- Claim C7 counterexample: `db7` holds a `completed` match with one
assignment row; a single toggleLock moves it out of `completed`, to
`locked` -- so `completed` is not terminal under toggleLock. -/
theorem completed_not_terminal_cex :
    statusOf db7 1 = some "completed" ∧
    match_toggle_lock db7 1 = some (setStatus db7 1 "locked", .ok "locked") ∧
    statusOf (setStatus db7 1 "locked") 1 = some "locked" := by
  decide

/-- Claim C7 amended: a `completed` match is treated like a pending one by
toggleLock: with zero assignment rows the toggle fails with the empty-roster
error and the match stays `completed`; with at least one row the toggle sets
the status to `locked` (from which a second toggle reaches `pending`), so
`completed` is not terminal. -/
theorem completed_toggle_behavior (db : DB) (mid : ℕ) (m : MatchRow)
    (hm : findMatch db mid = some m) (hs : m.status = "completed") :
    (rowsFor db.assignments m.id = [] →
      match_toggle_lock db mid = some (db, .err "no assignments to lock")) ∧
    (rowsFor db.assignments m.id ≠ [] →
      match_toggle_lock db mid = some (setStatus db m.id "locked", .ok "locked") ∧
        statusOf (setStatus db m.id "locked") mid = some "locked") := by
  have hid : m.id = mid := findMatch_id db mid m hm
  refine ⟨?_, ?_⟩
  · intro hr
    simp only [match_toggle_lock, hm]
    rw [if_neg (by rw [hs]; decide), if_pos (by rw [hr]; rfl)]
  · intro hr
    constructor
    · simp only [match_toggle_lock, hm]
      rw [if_neg (by rw [hs]; decide),
        if_neg (fun h => hr (List.length_eq_zero.mp h))]
    · rw [hid, statusOf, findMatch_setStatus db mid "locked" m hm]
      rfl

/-- Witness for `completed_toggle_behavior` at `db7`. -/
theorem completed_toggle_behavior_witness :
    match_toggle_lock db7 1 = some (setStatus db7 1 "locked", .ok "locked") :=
  ((completed_toggle_behavior db7 1 m7 (by decide) (by decide)).2 (by decide)).1

/-- Claim C1 counterexample: `db1c` holds a `completed` match with no
assignments; the assignment upsert nevertheless succeeds and inserts a row,
so a `completed` match is neither rejected with MatchLocked nor left
unchanged. -/
theorem locked_gate_cex :
    statusOf db1c 1 = some "completed" ∧
    match_assign_player db1c 1 7 "A" false =
      some ({ db1c with assignments := [⟨1, 1, 7, "A"⟩] }, .ok ()) ∧
    ({ db1c with assignments := [⟨1, 1, 7, "A"⟩] } : DB).assignments ≠ db1c.assignments := by
  decide

/-- Claim C1 amended: for a match whose status is `locked` (and only that
status: `completed` is not gated, see the counterexample), the balancer-driven
replace of balance and shuffle, the assignment upsert, and the assignment
remove all fail with the MatchLocked error and return the database, hence the
match's assignment set, completely unchanged. -/
theorem locked_gate (db : DB) (mid : ℕ) (m : MatchRow)
    (perm : List PlayerRow → List PlayerRow) (pid : ℕ) (side : String) (rm : Bool)
    (hm : findMatch db mid = some m) (hs : m.status = "locked") :
    match_auto_balance db mid = some (db, .err "match locked") ∧
    match_shuffle perm db mid = some (db, .err "match locked") ∧
    match_assign_player db mid pid side rm = some (db, .err "match locked") := by
  refine ⟨?_, ?_, ?_⟩
  · simp only [match_auto_balance, hm]
    rw [if_pos hs]
  · simp only [match_shuffle, hm]
    rw [if_pos hs]
  · simp only [match_assign_player, hm]
    rw [if_pos hs]

/-- Witness for `locked_gate` on a locked match. -/
theorem locked_gate_witness :
    match_auto_balance ⟨[], [], [], [⟨1, "locked", none, none⟩], []⟩ 1 =
      some (⟨[], [], [], [⟨1, "locked", none, none⟩], []⟩, .err "match locked") :=
  (locked_gate ⟨[], [], [], [⟨1, "locked", none, none⟩], []⟩ 1
    ⟨1, "locked", none, none⟩ id 0 "A" false (by decide) (by decide)).1

/-- Claim C3 counterexample: in `db3` the match's `team1` is set but has no
members, so the claim requires an empty pool; the code instead falls back to
every player in the system and the pool is the stray player. -/
theorem pool_fallback_cex :
    c3m.team1_id.isSome ∧ teamUnion db3 c3m = [] ∧ poolFor db3 c3m = [c3stray] := by
  decide

/-- Claim C3 amended: the pool for balance and shuffle is the union of the
current members of `team1` and `team2` whenever that union is non-empty, and
is every player in the system whenever the union is empty -- including when a
team is set but memberless. -/
theorem pool_rule (db : DB) (m : MatchRow) :
    (teamUnion db m ≠ [] → poolFor db m = teamUnion db m) ∧
    (teamUnion db m = [] → poolFor db m = db.players) := by
  constructor
  · intro h
    rw [poolFor, if_neg (by simpa using h)]
  · intro h
    rw [poolFor, if_pos (by simpa using h)]

/-- Witness for `pool_rule` on `db3`, whose team union is empty. -/
theorem pool_rule_witness : poolFor db3 c3m = db3.players :=
  (pool_rule db3 c3m).2 (by decide)

/-- Claim C8: on an unlocked match, upserting a player to one side and then
immediately to the other leaves exactly one assignment row for that
(match, player), carrying the second side. -/
theorem assign_upsert_single_row (db : DB) (mid pid : ℕ) (s1 s2 : String) (m : MatchRow)
    (hm : findMatch db mid = some m) (hlock : ¬ m.status = "locked")
    (hs1 : ¬ s1 = "remove") (hs2 : ¬ s2 = "remove") :
    ∃ db1 db2,
      match_assign_player db mid pid s1 false = some (db1, .ok ()) ∧
      match_assign_player db1 mid pid s2 false = some (db2, .ok ()) ∧
      (db2.assignments.filter (fun a => a.match_id = m.id ∧ a.player_id = pid)).map
          (fun a => a.team_side) = [s2] := by
  have e1 : match_assign_player db mid pid s1 false =
      some (upsertState db m.id pid s1, .ok ()) := by
    simp only [match_assign_player, hm]
    rw [if_neg hlock, if_neg (by simp [hs1])]
  have e2 : match_assign_player (upsertState db m.id pid s1) mid pid s2 false =
      some (upsertState (upsertState db m.id pid s1) m.id pid s2, .ok ()) := by
    simp only [match_assign_player,
      show findMatch (upsertState db m.id pid s1) mid = some m from hm]
    rw [if_neg hlock, if_neg (by simp [hs2])]
  refine ⟨_, _, e1, e2, ?_⟩
  have hnil : ∀ (l : List AssignmentRow),
      (l.filter (fun a => ¬ (a.match_id = m.id ∧ a.player_id = pid))).filter
        (fun a => a.match_id = m.id ∧ a.player_id = pid) = [] := by
    intro l
    rw [List.filter_eq_nil_iff]
    intro a ha
    have h := List.of_mem_filter ha
    simp only [decide_not, Bool.not_eq_true', decide_eq_false_iff_not] at h
    simp [h]
  simp only [upsertState, List.filter_append, hnil]
  simp

/-- Witness for `assign_upsert_single_row` on `db6`. -/
theorem assign_upsert_single_row_witness :
    ∃ db1 db2,
      match_assign_player db6 1 4 "A" false = some (db1, .ok ()) ∧
      match_assign_player db1 1 4 "B" false = some (db2, .ok ()) ∧
      (db2.assignments.filter (fun a => a.match_id = m6.id ∧ a.player_id = 4)).map
          (fun a => a.team_side) = ["B"] :=
  assign_upsert_single_row db6 1 4 "A" "B" m6 (by decide) (by decide) (by decide) (by decide)

/-- Claim C9 counterexample: `db9` has no players at all, yet assigning the
nonexistent player 99 to side A of the pending match succeeds with ok and
creates an assignment row -- there is no PlayerNotFound check. -/
theorem assign_ghost_player_cex :
    db9.players = [] ∧
    match_assign_player db9 1 99 "A" false =
      some ({ db9 with assignments := [⟨1, 1, 99, "A"⟩] }, .ok ()) := by
  decide

/-- Claim C9 amended: for every existing unlocked match, `assign` performs no
player-existence check at all: with any player id -- in particular one that
identifies no player -- it succeeds with ok and creates exactly one
assignment row for that (match, player). -/
theorem assign_no_player_check (db : DB) (mid pid : ℕ) (side : String) (m : MatchRow)
    (hm : findMatch db mid = some m) (hlock : ¬ m.status = "locked")
    (hside : ¬ side = "remove") :
    ∃ db2,
      match_assign_player db mid pid side false = some (db2, .ok ()) ∧
      (db2.assignments.filter (fun a => a.match_id = m.id ∧ a.player_id = pid)).length = 1 := by
  have e1 : match_assign_player db mid pid side false =
      some (upsertState db m.id pid side, .ok ()) := by
    simp only [match_assign_player, hm]
    rw [if_neg hlock, if_neg (by simp [hside])]
  refine ⟨_, e1, ?_⟩
  have hnil : ∀ (l : List AssignmentRow),
      (l.filter (fun a => ¬ (a.match_id = m.id ∧ a.player_id = pid))).filter
        (fun a => a.match_id = m.id ∧ a.player_id = pid) = [] := by
    intro l
    rw [List.filter_eq_nil_iff]
    intro a ha
    have h := List.of_mem_filter ha
    simp only [decide_not, Bool.not_eq_true', decide_eq_false_iff_not] at h
    simp [h]
  simp only [upsertState, List.filter_append, hnil]
  simp

/-- Witness for `assign_no_player_check` on `db9` and the ghost player 99. -/
theorem assign_no_player_check_witness :
    ∃ db2,
      match_assign_player db9 1 99 "A" false = some (db2, .ok ()) ∧
      (db2.assignments.filter (fun a => a.match_id = m9.id ∧ a.player_id = 99)).length = 1 :=
  assign_no_player_check db9 1 99 "A" m9 (by decide) (by decide) (by decide)

/-- Claim C5: for a player on a team, `delete_player` always completes the
deletion -- the player row and every one of the player's skill rows are gone
from the committed state -- and a failure of the subsequent recompute (which
in this code happens whenever any member remains) neither aborts nor undoes
it; the team table, hence every stored team rating, is left exactly as it
was. -/
theorem delete_player_durable (db : DB) (pid tid : ℕ) (pl : PlayerRow)
    (hp : db.players.find? (fun p => p.id = pid) = some pl)
    (ht : pl.team_id = some tid) :
    ∃ r, delete_player db pid = some (deletePlayerState db pid, r) ∧
      (∀ p ∈ (deletePlayerState db pid).players, p.id ≠ pid) ∧
      (∀ s ∈ (deletePlayerState db pid).skills, s.player_id ≠ pid) ∧
      (deletePlayerState db pid).teams = db.teams ∧
      (teamMembers (deletePlayerState db pid) tid ≠ [] → r ≠ .ok ()) := by
  have hplayers : ∀ p ∈ (deletePlayerState db pid).players, p.id ≠ pid := by
    intro p hpm
    simp only [deletePlayerState] at hpm
    have h := List.of_mem_filter hpm
    simpa using h
  have hskills : ∀ s ∈ (deletePlayerState db pid).skills, s.player_id ≠ pid := by
    intro s hsm
    simp only [deletePlayerState] at hsm
    have h := List.of_mem_filter hsm
    simpa using h
  simp only [delete_player, hp, ht]
  by_cases h1 : (teamMembers (deletePlayerState db pid) tid).isEmpty
  · refine ⟨.ok (), by rw [if_pos h1], hplayers, hskills, rfl, ?_⟩
    intro hne
    exact absurd (List.isEmpty_iff.mp h1) hne
  · by_cases h2 : ((teamMembers (deletePlayerState db pid) tid).flatMap
        (fun p => playerSkills (deletePlayerState db pid) p.id)).isEmpty
    · refine ⟨.err "ZeroDivisionError", by rw [if_neg h1, if_pos h2],
        hplayers, hskills, rfl, ?_⟩
      intro _ hcontra
      exact MutResult.noConfusion hcontra
    · refine ⟨.err "AttributeError: PlayerSkill has no attribute skill_value",
        by rw [if_neg h1, if_neg h2], hplayers, hskills, rfl, ?_⟩
      intro _ hcontra
      exact MutResult.noConfusion hcontra

/-- Witness for `delete_player_durable` on `db5`: the victim is deleted, the
teammate remains, the recompute fails, the team row is untouched. -/
theorem delete_player_durable_witness :
    ∃ r, delete_player db5 1 = some (deletePlayerState db5 1, r) ∧
      (∀ p ∈ (deletePlayerState db5 1).players, p.id ≠ 1) ∧
      (∀ s ∈ (deletePlayerState db5 1).skills, s.player_id ≠ 1) ∧
      (deletePlayerState db5 1).teams = db5.teams ∧
      (teamMembers (deletePlayerState db5 1) 1 ≠ [] → r ≠ .ok ()) :=
  delete_player_durable db5 1 1 c5victim (by decide) (by decide)

/-- Claim C2 counterexample: on `db2fix` (one old assignment row on side B,
a one-player pool) the committed snapshots visible to a concurrent reader
during `match_auto_balance` are: the old set, then the empty set -- the bulk
delete is committed on its own -- and only then the new set.  The middle
snapshot equals neither the full old set nor the full new set, so the
delete-then-insert step is not all-or-nothing. -/
theorem replace_not_atomic_cex :
    match_auto_balance_states db2fix 1 =
      [[⟨1, 1, 3, "B"⟩], [], [⟨1, 1, 3, "A"⟩]] ∧
    ([] : List AssignmentRow) ≠ [⟨1, 1, 3, "B"⟩] ∧
    ([] : List AssignmentRow) ≠ [⟨1, 1, 3, "A"⟩] := by
  decide

/-- Claim C2 amended: the delete and the inserts of the balancer-driven
replace are committed in two separate transactions; the committed snapshots
a reader can observe are exactly the old table, the table with every row of
the match removed (an empty assignment set for the match), and the final
table, which is the response's new state.  A failure between the two commits
therefore exposes an empty assignment set, not the old or the new one. -/
theorem replace_visible_states (db : DB) (mid : ℕ) (m : MatchRow)
    (hm : findMatch db mid = some m) (hs : ¬ m.status = "locked") :
    ∃ final, match_auto_balance_states db mid =
        [db.assignments, (deleteAssignmentsFor db m.id).assignments, final] ∧
      (∃ db2 res, match_auto_balance db mid = some (db2, .ok res) ∧
        db2.assignments = final) ∧
      rowsFor (deleteAssignmentsFor db m.id).assignments m.id = [] := by
  refine ⟨(replacedState db m.id (poolFor db m)).assignments, ?_,
    ⟨replacedState db m.id (poolFor db m),
     ((balance_teams (poolFor db m)).1.map (fun p => p.name),
      (balance_teams (poolFor db m)).2.map (fun p => p.name)), ?_, rfl⟩, ?_⟩
  · simp only [match_auto_balance_states, hm]
    rw [if_neg hs]
  · simp only [match_auto_balance, hm]
    rw [if_neg hs]
  · rw [rowsFor, List.filter_eq_nil_iff]
    intro a ha
    simp only [deleteAssignmentsFor] at ha
    have h := List.of_mem_filter ha
    simpa using h

/-- Witness for `replace_visible_states` on `db2fix`. -/
theorem replace_visible_states_witness :
    ∃ final, match_auto_balance_states db2fix 1 =
        [db2fix.assignments, (deleteAssignmentsFor db2fix 1).assignments, final] ∧
      (∃ db2 res, match_auto_balance db2fix 1 = some (db2, .ok res) ∧
        db2.assignments = final) ∧
      rowsFor (deleteAssignmentsFor db2fix 1).assignments 1 = [] :=
  replace_visible_states db2fix 1 ⟨1, "pending", some 1, none⟩ (by decide) (by decide)

/-- Every rating in the pool is bounded by the pool's maximum rating. -/
lemma le_maxRating (pool : List (ℕ × ℕ)) : ∀ x ∈ pool, x.2 ≤ maxRating pool := by
  induction pool with
  | nil => intro x hx; cases hx
  | cons y ys ih =>
    intro x hx
    rcases List.mem_cons.mp hx with h | h
    · subst h
      simp only [maxRating, List.map_cons, List.foldr_cons]
      exact le_max_left _ _
    · refine le_trans (ih x h) ?_
      simp only [maxRating, List.map_cons, List.foldr_cons]
      exact le_max_right _ _

/-- Invariant of the greedy fold: provided every rating in the remaining list
is between 0 and `M` and the running sums are the sums of the sides with a
difference bounded by `M`, the final state keeps the sums matching the sides,
keeps the difference bounded by `M`, and adds exactly the list's elements to
the two sides. -/
lemma greedy_foldl_inv {α : Type} (rating : α → ℤ) (M : ℤ) :
    ∀ l : List α, (∀ x ∈ l, 0 ≤ rating x) → (∀ x ∈ l, rating x ≤ M) →
      ∀ st : GreedyState α,
        st.sumA = ratingSum rating st.sideA →
        st.sumB = ratingSum rating st.sideB →
        |st.sumA - st.sumB| ≤ M →
        (l.foldl (greedyStep rating) st).sumA =
            ratingSum rating (l.foldl (greedyStep rating) st).sideA ∧
        (l.foldl (greedyStep rating) st).sumB =
            ratingSum rating (l.foldl (greedyStep rating) st).sideB ∧
        |(l.foldl (greedyStep rating) st).sumA -
            (l.foldl (greedyStep rating) st).sumB| ≤ M ∧
        (((l.foldl (greedyStep rating) st).sideA ++
            (l.foldl (greedyStep rating) st).sideB : List α) : Multiset α) =
          ((st.sideA ++ st.sideB : List α) : Multiset α) + (l : Multiset α) := by
  intro l
  induction l with
  | nil =>
    intro _ _ st h1 h2 h3
    exact ⟨h1, h2, h3, by simp⟩
  | cons x xs ih =>
    intro hnn hub st h1 h2 h3
    have hx0 : 0 ≤ rating x := hnn x (List.mem_cons_self x xs)
    have hxM : rating x ≤ M := hub x (List.mem_cons_self x xs)
    have hnn2 : ∀ y ∈ xs, 0 ≤ rating y := fun y hy => hnn y (List.mem_cons_of_mem x hy)
    have hub2 : ∀ y ∈ xs, rating y ≤ M := fun y hy => hub y (List.mem_cons_of_mem x hy)
    rw [List.foldl_cons]
    rw [abs_le] at h3
    by_cases hc : st.sumA ≤ st.sumB
    · have hstep : greedyStep rating st x =
          { st with sideA := st.sideA ++ [x], sumA := st.sumA + rating x } := by
        rw [greedyStep, if_pos hc]
      rw [hstep]
      have h1' : st.sumA + rating x = ratingSum rating (st.sideA ++ [x]) := by
        simp [ratingSum, h1]
      have hd : |st.sumA + rating x - st.sumB| ≤ M := by
        rw [abs_le]
        omega
      obtain ⟨g1, g2, g3, g4⟩ := ih hnn2 hub2
        { st with sideA := st.sideA ++ [x], sumA := st.sumA + rating x } h1' h2 hd
      refine ⟨g1, g2, g3, ?_⟩
      rw [g4]
      show (((st.sideA ++ [x]) ++ st.sideB : List α) : Multiset α) +
          ((xs : List α) : Multiset α) =
        ((st.sideA ++ st.sideB : List α) : Multiset α) + ((x :: xs : List α) : Multiset α)
      simp only [← Multiset.coe_add, Multiset.coe_singleton, ← Multiset.cons_coe,
        ← Multiset.singleton_add]
      abel
    · have hstep : greedyStep rating st x =
          { st with sideB := st.sideB ++ [x], sumB := st.sumB + rating x } := by
        rw [greedyStep, if_neg hc]
      rw [hstep]
      have h2' : st.sumB + rating x = ratingSum rating (st.sideB ++ [x]) := by
        simp [ratingSum, h2]
      have hd : |st.sumA - (st.sumB + rating x)| ≤ M := by
        rw [abs_le]
        push_neg at hc
        omega
      obtain ⟨g1, g2, g3, g4⟩ := ih hnn2 hub2
        { st with sideB := st.sideB ++ [x], sumB := st.sumB + rating x } h1 h2' hd
      refine ⟨g1, g2, g3, ?_⟩
      rw [g4]
      show ((st.sideA ++ (st.sideB ++ [x]) : List α) : Multiset α) +
          ((xs : List α) : Multiset α) =
        ((st.sideA ++ st.sideB : List α) : Multiset α) + ((x :: xs : List α) : Multiset α)
      simp only [← Multiset.coe_add, Multiset.coe_singleton, ← Multiset.cons_coe,
        ← Multiset.singleton_add]
      abel

/-- Claim C10: for every duplicate-free pool of (id, rating) pairs, `balance`
produces two disjoint sides whose union is the pool as a set, and the
absolute difference of the two sides' rating sums is at most the maximum
single rating occurring in the pool (the greedy bound). -/
theorem balance_partition_bound (pool : List (ℕ × ℕ)) (hnd : pool.Nodup) :
    (∀ x, x ∈ (balance pool).1 ++ (balance pool).2 ↔ x ∈ pool) ∧
    (balance pool).1.Disjoint (balance pool).2 ∧
    |ratingSum (fun p => (p.2 : ℤ)) (balance pool).1 -
        ratingSum (fun p => (p.2 : ℤ)) (balance pool).2| ≤ (maxRating pool : ℤ) := by
  have hsortperm : List.Perm (sortDesc (fun p => ((p.2 : ℕ) : ℤ)) pool) pool :=
    List.perm_insertionSort _ pool
  have hnn : ∀ x ∈ sortDesc (fun p => ((p.2 : ℕ) : ℤ)) pool, 0 ≤ ((x.2 : ℕ) : ℤ) :=
    fun x _ => Int.natCast_nonneg x.2
  have hub : ∀ x ∈ sortDesc (fun p => ((p.2 : ℕ) : ℤ)) pool,
      ((x.2 : ℕ) : ℤ) ≤ (maxRating pool : ℤ) := by
    intro x hx
    exact_mod_cast le_maxRating pool x (hsortperm.mem_iff.mp hx)
  obtain ⟨g1, g2, g3, g4⟩ := greedy_foldl_inv (fun p => ((p.2 : ℕ) : ℤ)) (maxRating pool)
    (sortDesc (fun p => ((p.2 : ℕ) : ℤ)) pool) hnn hub ⟨[], [], 0, 0⟩ rfl rfl
    (by simp)
  simp only [balance, balanceBy]
  have hperm : List.Perm
      (((sortDesc (fun p => ((p.2 : ℕ) : ℤ)) pool).foldl
          (greedyStep (fun p => ((p.2 : ℕ) : ℤ))) ⟨[], [], 0, 0⟩).sideA ++
        ((sortDesc (fun p => ((p.2 : ℕ) : ℤ)) pool).foldl
          (greedyStep (fun p => ((p.2 : ℕ) : ℤ))) ⟨[], [], 0, 0⟩).sideB) pool := by
    refine (Multiset.coe_eq_coe.mp ?_).trans hsortperm
    rw [g4]
    simp
  refine ⟨fun x => hperm.mem_iff, ?_, ?_⟩
  · exact List.disjoint_of_nodup_append
      (hperm.nodup_iff.mpr hnd)
  · rw [← g1, ← g2]
    exact g3

/-- Witness for `balance_partition_bound` on the §8 end-to-end pool
{P1 rating 1000, P2 rating 1400}. -/
theorem balance_partition_bound_witness :
    (∀ x, x ∈ (balance [(1, 1000), (2, 1400)]).1 ++ (balance [(1, 1000), (2, 1400)]).2 ↔
        x ∈ [(1, 1000), (2, 1400)]) ∧
    (balance [(1, 1000), (2, 1400)]).1.Disjoint (balance [(1, 1000), (2, 1400)]).2 ∧
    |ratingSum (fun p => (p.2 : ℤ)) (balance [(1, 1000), (2, 1400)]).1 -
        ratingSum (fun p => (p.2 : ℤ)) (balance [(1, 1000), (2, 1400)]).2| ≤
      (maxRating [(1, 1000), (2, 1400)] : ℤ) :=
  balance_partition_bound [(1, 1000), (2, 1400)] (by decide)
